import Mathlib

/-!
Verification of the member-registry and reflection core of the `gl_raii`
repository, shallowly embedded in Lean 4.

The embedding follows the Rust source:
* `GLSLBasicTag` with `len`, `vectorize`, `matricize` — `src/types_impl.rs`
* vertex member counting — `src/vertex/mod.rs` (`Vertex::num_members`)
* attachment traversal, counting, color-index compaction, the
  reference-transparency impl and handle containers —
  `src/framebuffer/attachments.rs` and
  `gullery/src/framebuffer/attachments.rs`
* vertex attribute registration bounds checks —
  `src/buffers/vao.rs` (`VertexAttribBuilder::add_vertex_attrib`)
-/

/-- The GLSL basic type tags, exactly the non-commented variants used by
`src/types_impl.rs` (`GLSLBasicTag`). -/
inductive GLSLBasicTag where
  | Float | Vec2 | Vec3 | Vec4
  | Int | IVec2 | IVec3 | IVec4
  | UInt | UVec2 | UVec3 | UVec4
  | Bool | BVec2 | BVec3 | BVec4
  | Mat2 | Mat3 | Mat4
  deriving DecidableEq, Repr

namespace GLSLBasicTag

/-- `GLSLBasicTag::len` from `src/types_impl.rs`: the number of scalar
elements in the tagged type. -/
def len : GLSLBasicTag → Nat
  | Int | Float | UInt | Bool => 1
  | Vec2 | IVec2 | UVec2 | BVec2 => 2
  | Vec3 | IVec3 | UVec3 | BVec3 => 3
  | Vec4 | IVec4 | UVec4 | BVec4 => 4
  | Mat2 => 4
  | Mat3 => 9
  | Mat4 => 16

/-- `GLSLBasicTag::vectorize` from `src/types_impl.rs`: turn a scalar tag
into the vector tag of the given length, `none` for every pair the Rust
`match` sends to its `_ => None` arm.  The Rust argument is a `u8`; lengths
are modelled as `Nat`, every length outside the matched literals falls to
the wildcard arm exactly as in the source. -/
def vectorize : GLSLBasicTag → Nat → Option GLSLBasicTag
  | Int, 1 => some Int
  | Int, 2 => some IVec2
  | Int, 3 => some IVec3
  | Int, 4 => some IVec4
  | Float, 1 => some Float
  | Float, 2 => some Vec2
  | Float, 3 => some Vec3
  | Float, 4 => some Vec4
  | UInt, 1 => some UInt
  | UInt, 2 => some UVec2
  | UInt, 3 => some UVec3
  | UInt, 4 => some UVec4
  | Bool, 1 => some Bool
  | Bool, 2 => some BVec2
  | Bool, 3 => some BVec3
  | Bool, 4 => some BVec4
  | _, _ => none

/-- `GLSLBasicTag::matricize` from `src/types_impl.rs`: only square
floating-point matrices of dimension 2, 3, 4 exist. -/
def matricize : GLSLBasicTag → Nat → Nat → Option GLSLBasicTag
  | Float, 2, 2 => some Mat2
  | Float, 3, 3 => some Mat3
  | Float, 4, 4 => some Mat4
  | _, _, _ => none

end GLSLBasicTag

/-- The four scalar tags: exactly the tags produced by `prim_tag` of the
`impl_gl_scalar_nonorm!` scalar impls in `src/types_impl.rs`. -/
def isScalarTag : GLSLBasicTag → Bool
  | .Int | .UInt | .Bool | .Float => true
  | _ => false

/-- **C5.** `vectorize s n` is defined exactly when `s` is one of the four
scalar tags (Bool, Int, UInt, Float) and `n` is in `1..=4`; every other
length and every non-scalar tag yields `none`. -/
theorem vectorize_isSome_iff (s : GLSLBasicTag) (n : Nat) :
    (s.vectorize n).isSome = true ↔
      (isScalarTag s = true ∧ 1 ≤ n ∧ n ≤ 4) := by
  cases s <;> rcases n with _ | _ | _ | _ | _ | n <;>
    simp [GLSLBasicTag.vectorize, isScalarTag]

/-- **C6.** `matricize s w h` is defined exactly when `s` is the float
scalar tag, `w = h` and `w` is 2, 3 or 4; in particular
`matricize Float 2 3` is undefined and `matricize Float 3 3` is `Mat3`. -/
theorem matricize_isSome_iff :
    (∀ (s : GLSLBasicTag) (w h : Nat),
      (s.matricize w h).isSome = true ↔
        (s = .Float ∧ w = h ∧ (w = 2 ∨ w = 3 ∨ w = 4))) ∧
    GLSLBasicTag.Float.matricize 2 3 = none ∧
    GLSLBasicTag.Float.matricize 3 3 = some .Mat3 := by
  refine ⟨fun s w h => ?_, rfl, rfl⟩
  cases s <;> rcases w with _ | _ | _ | _ | _ | w <;>
    rcases h with _ | _ | _ | _ | _ | h <;>
    simp [GLSLBasicTag.matricize]

/-- **C7.** `len` returns 1 on every scalar tag, N on every length-N vector
tag (N in 2..=4), and N*N on every NxN matrix tag, so Mat2, Mat3, Mat4
yield 4, 9 and 16. -/
theorem len_counts_elements :
    (GLSLBasicTag.Int.len = 1 ∧ GLSLBasicTag.UInt.len = 1 ∧
     GLSLBasicTag.Bool.len = 1 ∧ GLSLBasicTag.Float.len = 1) ∧
    (GLSLBasicTag.Vec2.len = 2 ∧ GLSLBasicTag.IVec2.len = 2 ∧
     GLSLBasicTag.UVec2.len = 2 ∧ GLSLBasicTag.BVec2.len = 2) ∧
    (GLSLBasicTag.Vec3.len = 3 ∧ GLSLBasicTag.IVec3.len = 3 ∧
     GLSLBasicTag.UVec3.len = 3 ∧ GLSLBasicTag.BVec3.len = 3) ∧
    (GLSLBasicTag.Vec4.len = 4 ∧ GLSLBasicTag.IVec4.len = 4 ∧
     GLSLBasicTag.UVec4.len = 4 ∧ GLSLBasicTag.BVec4.len = 4) ∧
    (GLSLBasicTag.Mat2.len = 2 * 2 ∧ GLSLBasicTag.Mat3.len = 3 * 3 ∧
     GLSLBasicTag.Mat4.len = 4 * 4) := by
  decide

/-- **C10.** Vectorizing any of the four scalar tags by length 1 is the
identity: the length-1 vector tag is the bare scalar tag itself. -/
theorem vectorize_one_eq_self :
    GLSLBasicTag.Int.vectorize 1 = some .Int ∧
    GLSLBasicTag.Float.vectorize 1 = some .Float ∧
    GLSLBasicTag.UInt.vectorize 1 = some .UInt ∧
    GLSLBasicTag.Bool.vectorize 1 = some .Bool := by
  decide

/-! ## Vertex member traversal (`src/vertex/mod.rs`) -/

/-- A vertex field declaration: the name and the accessor
(`fn(*const Group) -> *const T`), the accessor modelled as an opaque
token. -/
structure VertexMember where
  name : String
  accessor : Nat

/-- Modelled from the spec: the derive-generated `Vertex::members` impl is
not under `src/`; per the spec it invokes the registry's `add_member` once
per declared field, in declaration order, passing name and accessor.  The
registry (`VertexMemberRegistry`) is its `add_member` method over an
explicit state `σ`. -/
def Vertex.members {σ : Type} (fields : List VertexMember)
    (add_member : σ → String → Nat → σ) (reg : σ) : σ :=
  fields.foldl (fun r f => add_member r f.name f.accessor) reg

/-- `Vertex::num_members` from `src/vertex/mod.rs`: run `members` with the
`MemberCounter` visitor, whose `add_member` ignores the name and the
accessor and increments the count, starting from 0. -/
def Vertex.num_members (fields : List VertexMember) : Nat :=
  Vertex.members fields (fun num _ _ => num + 1) 0

/-- The trace of a name-collecting visitor run through `Vertex.members`:
the visitor callbacks in the order they happen. -/
def Vertex.membersTrace (fields : List VertexMember) : List String :=
  Vertex.members fields (fun l name _ => l ++ [name]) []

/-! ## Attachments traversal (`src/framebuffer/attachments.rs`,
`gullery/src/framebuffer/attachments.rs`) -/

/-- Modelled from the spec: `FormatTypeTag` lives in gullery's
`image_format` module, which is not under `src/`; the spec needs the color
kind and at least one non-color kind (depth, stencil attachments). -/
inductive FormatTypeTag where
  | Color | Depth | Stencil
  deriving DecidableEq, Repr

/-- `AttachmentTargetType` from `src/framebuffer/attachments.rs`: an
attachment field is a renderbuffer or a texture, which statically selects
the narrow registry method its `add_to_registry` calls. -/
inductive AttachmentTargetType where
  | Renderbuffer | Texture
  deriving DecidableEq, Repr

/-- An attachment field declaration: name, target kind, the format kind of
its `Format` associated type, the mip-selector value supplied by the
declaration (trivial `()`, i.e. 0, for renderbuffers) and the accessor as
an opaque token. -/
structure AttachmentMember where
  name : String
  target : AttachmentTargetType
  formatType : FormatTypeTag
  mip : Nat
  accessor : Nat

/-- The narrow `AttachmentsMemberRegistry` trait: one method per
attachment variant, over an explicit state `σ`.  `add_renderbuffer`
receives name, the format kind of the type parameter, and the accessor;
`add_texture` additionally receives the texture mip level. -/
structure AttachmentsMemberRegistry (σ : Type) where
  add_renderbuffer : σ → String → FormatTypeTag → Nat → σ
  add_texture : σ → String → FormatTypeTag → Nat → Nat → σ

/-- The wide `AttachmentsMemberRegistryNoSpecifics` trait: a single
generic `add_member` receiving name, the type-level format kind carried by
the field type parameter, and the accessor. -/
structure AttachmentsMemberRegistryNoSpecifics (σ : Type) where
  add_member : σ → String → FormatTypeTag → Nat → σ

/-- `AMRNSImpl` from `src/framebuffer/attachments.rs`: adapts a wide
visitor to the narrow registry, delegating both variant methods to
`add_member` and discarding the texture mip level. -/
def AMRNSImpl {σ : Type} (r : AttachmentsMemberRegistryNoSpecifics σ) :
    AttachmentsMemberRegistry σ :=
  { add_renderbuffer := fun s name fmt get_member => r.add_member s name fmt get_member
    add_texture := fun s name fmt get_member _ => r.add_member s name fmt get_member }

/-- Modelled from the spec: the derive-generated `Attachments::members`
impl is not under `src/`; per the spec it calls, once per declared field in
declaration order, the narrow registry method statically selected by the
field's variant (`add_renderbuffer` or `add_texture`). -/
def Attachments.members {σ : Type} (fields : List AttachmentMember)
    (reg : AttachmentsMemberRegistry σ) (st : σ) : σ :=
  fields.foldl (fun s f =>
    match f.target with
    | .Renderbuffer => reg.add_renderbuffer s f.name f.formatType f.accessor
    | .Texture => reg.add_texture s f.name f.formatType f.accessor f.mip) st

/-- `Attachments::num_members` from `src/framebuffer/attachments.rs`: run
`members` with `AMRNSImpl` wrapping the `MemberCounter` visitor, whose
`add_member` ignores its arguments and increments the count from 0. -/
def Attachments.num_members (fields : List AttachmentMember) : Nat :=
  Attachments.members fields (AMRNSImpl ⟨fun num _ _ _ => num + 1⟩) 0

/-- The trace of a name-collecting wide visitor run through
`Attachments.members`. -/
def Attachments.membersTrace (fields : List AttachmentMember) : List String :=
  Attachments.members fields (AMRNSImpl ⟨fun l name _ _ => l ++ [name]⟩) []

/-- The state of the `AttachmentRefMatcher` visitor used by
`Attachments::color_attachments` (gullery source): the running color index
(a `u8`, hence mod 256) and the trace of indices passed to `for_each`. -/
structure AttachmentRefMatcherState where
  color_index : Nat
  out : List Nat
  deriving DecidableEq, Repr

/-- `AttachmentRefMatcher`'s `add_member` from
`gullery/src/framebuffer/attachments.rs`: if the field's format kind is
color, call `for_each` with the current color index; then, if the field's
format kind is color, increment the color index. -/
def AttachmentRefMatcher.add_member (s : AttachmentRefMatcherState)
    (_name : String) (fmt : FormatTypeTag) (_get_member : Nat) :
    AttachmentRefMatcherState :=
  let s1 := if fmt = .Color then { s with out := s.out ++ [s.color_index] } else s
  if fmt = .Color then { s1 with color_index := (s1.color_index + 1) % 256 } else s1

/-- `Attachments::color_attachments` from
`gullery/src/framebuffer/attachments.rs`, with the `for_each` callback
reified as the list of indices it receives, in call order. -/
def Attachments.color_attachments (fields : List AttachmentMember) : List Nat :=
  (Attachments.members fields (AMRNSImpl ⟨AttachmentRefMatcher.add_member⟩)
    ⟨0, []⟩).out

/-- The number of fields of an attachment aggregate whose format kind is
color. -/
def countColorFields (fields : List AttachmentMember) : Nat :=
  fields.countP (fun f => f.formatType == FormatTypeTag.Color)

lemma vertexMembers_count (fields : List VertexMember) :
    ∀ n : Nat, Vertex.members fields (fun num _ _ => num + 1) n = n + fields.length := by
  induction fields with
  | nil => intro n; simp [Vertex.members]
  | cons f fs ih =>
    intro n
    simp only [Vertex.members, List.foldl_cons] at ih ⊢
    rw [ih]
    simp [Nat.add_comm, Nat.add_assoc, Nat.add_left_comm]

lemma vertexMembers_trace (fields : List VertexMember) :
    ∀ acc : List String,
      Vertex.members fields (fun l name _ => l ++ [name]) acc =
        acc ++ fields.map VertexMember.name := by
  induction fields with
  | nil => intro acc; simp [Vertex.members]
  | cons f fs ih =>
    intro acc
    simp only [Vertex.members, List.foldl_cons] at ih ⊢
    rw [ih]
    simp

lemma attachmentsMembers_step {σ : Type} (reg : AttachmentsMemberRegistry σ)
    (st : σ) (f : AttachmentMember) (fs : List AttachmentMember) :
    Attachments.members (f :: fs) reg st =
      Attachments.members fs reg
        (match f.target with
          | .Renderbuffer => reg.add_renderbuffer st f.name f.formatType f.accessor
          | .Texture => reg.add_texture st f.name f.formatType f.accessor f.mip) :=
  rfl

lemma attachmentsMembers_count (fields : List AttachmentMember) :
    ∀ n : Nat,
      Attachments.members fields (AMRNSImpl ⟨fun num _ _ _ => num + 1⟩) n =
        n + fields.length := by
  induction fields with
  | nil => intro n; simp [Attachments.members]
  | cons f fs ih =>
    intro n
    rw [attachmentsMembers_step]
    have hstep :
        (match f.target with
          | .Renderbuffer =>
            (AMRNSImpl ⟨fun num _ _ _ => num + 1⟩).add_renderbuffer
              n f.name f.formatType f.accessor
          | .Texture =>
            (AMRNSImpl ⟨fun num _ _ _ => num + 1⟩).add_texture
              n f.name f.formatType f.accessor f.mip) = n + 1 := by
      cases f.target <;> rfl
    rw [hstep, ih]
    simp [Nat.add_comm, Nat.add_assoc, Nat.add_left_comm]

lemma attachmentsMembers_trace (fields : List AttachmentMember) :
    ∀ acc : List String,
      Attachments.members fields (AMRNSImpl ⟨fun l name _ _ => l ++ [name]⟩) acc =
        acc ++ fields.map AttachmentMember.name := by
  induction fields with
  | nil => intro acc; simp [Attachments.members]
  | cons f fs ih =>
    intro acc
    rw [attachmentsMembers_step]
    have hstep :
        (match f.target with
          | .Renderbuffer =>
            (AMRNSImpl ⟨fun l name _ _ => l ++ [name]⟩).add_renderbuffer
              acc f.name f.formatType f.accessor
          | .Texture =>
            (AMRNSImpl ⟨fun l name _ _ => l ++ [name]⟩).add_texture
              acc f.name f.formatType f.accessor f.mip) = acc ++ [f.name] := by
      cases f.target <;> rfl
    rw [hstep, ih]
    simp

/-- **C1.** `num_members` returns exactly the number of declared fields
for every vertex aggregate and every attachment aggregate, for every
assignment of names and accessor tokens (the counting visitor ignores
accessors, so no field value is ever consulted); the visitor is invoked
once per field in declaration order, and a three-field aggregate counts to
3 with the visitor seeing the three names in order. -/
theorem num_members_eq_length :
    (∀ fields : List VertexMember,
      Vertex.num_members fields = fields.length ∧
      Vertex.membersTrace fields = fields.map VertexMember.name) ∧
    (∀ fields : List AttachmentMember,
      Attachments.num_members fields = fields.length ∧
      Attachments.membersTrace fields = fields.map AttachmentMember.name) ∧
    (∀ a b c : VertexMember,
      Vertex.num_members [a, b, c] = 3 ∧
      Vertex.membersTrace [a, b, c] = [a.name, b.name, c.name]) := by
  refine ⟨fun fields => ⟨?_, ?_⟩, fun fields => ⟨?_, ?_⟩, fun a b c => ⟨?_, ?_⟩⟩
  · simpa using vertexMembers_count fields 0
  · simpa using vertexMembers_trace fields []
  · simpa using attachmentsMembers_count fields 0
  · simpa using attachmentsMembers_trace fields []
  · simpa using vertexMembers_count [a, b, c] 0
  · simpa using vertexMembers_trace [a, b, c] []

lemma colorMatcher_run (fields : List AttachmentMember) :
    ∀ (i : Nat) (out : List Nat), i + countColorFields fields ≤ 255 →
      Attachments.members fields (AMRNSImpl ⟨AttachmentRefMatcher.add_member⟩)
        ⟨i, out⟩ =
        ⟨i + countColorFields fields,
          out ++ List.range' i (countColorFields fields)⟩ := by
  induction fields with
  | nil => intro i out _; simp [Attachments.members, countColorFields]
  | cons f fs ih =>
    intro i out h
    rw [attachmentsMembers_step]
    have hstep :
        (match f.target with
          | .Renderbuffer =>
            (AMRNSImpl ⟨AttachmentRefMatcher.add_member⟩).add_renderbuffer
              ⟨i, out⟩ f.name f.formatType f.accessor
          | .Texture =>
            (AMRNSImpl ⟨AttachmentRefMatcher.add_member⟩).add_texture
              ⟨i, out⟩ f.name f.formatType f.accessor f.mip) =
          AttachmentRefMatcher.add_member ⟨i, out⟩ f.name f.formatType f.accessor := by
      cases f.target <;> rfl
    rw [hstep]
    by_cases hc : f.formatType = FormatTypeTag.Color
    · have hcount : countColorFields (f :: fs) = countColorFields fs + 1 := by
        simp [countColorFields, List.countP_cons, hc]
      have hlt : i + 1 < 256 := by omega
      have hmod : (i + 1) % 256 = i + 1 := Nat.mod_eq_of_lt hlt
      have hadd : AttachmentRefMatcher.add_member ⟨i, out⟩ f.name f.formatType
          f.accessor = ⟨i + 1, out ++ [i]⟩ := by
        simp [AttachmentRefMatcher.add_member, hc, hmod]
      rw [hadd, ih (i + 1) (out ++ [i]) (by omega), hcount]
      refine congrArg₂ AttachmentRefMatcherState.mk (by omega) ?_
      rw [List.append_assoc]
      have hr : List.range' i (countColorFields fs + 1) =
          i :: List.range' (i + 1) (countColorFields fs) := List.range'_succ ..
      rw [hr]
      simp
    · have hcount : countColorFields (f :: fs) = countColorFields fs := by
        simp [countColorFields, List.countP_cons, hc]
      have hadd : AttachmentRefMatcher.add_member ⟨i, out⟩ f.name f.formatType
          f.accessor = ⟨i, out⟩ := by
        simp [AttachmentRefMatcher.add_member, hc]
      rw [hadd, ih i out (by rw [hcount] at h; omega), hcount]

/-- **C2.** For every attachment aggregate (with at most 255 color fields,
the capacity of the `u8` color index), `color_attachments` invokes the
callback exactly once per color-kind field, in declaration order, with the
field's zero-based index counted among color-kind fields only; non-color
fields trigger no callback and consume no index. -/
theorem color_attachments_compact (fields : List AttachmentMember)
    (h : countColorFields fields ≤ 255) :
    Attachments.color_attachments fields =
      List.range (countColorFields fields) := by
  unfold Attachments.color_attachments
  rw [colorMatcher_run fields 0 [] (by omega)]
  simp [List.range_eq_range']

/-- Witness for C2 at the spec's example `[color0 (color), depth0
(non-color), color1 (color)]`: the callback receives exactly `[0, 1]`. -/
theorem color_attachments_compact_witness :
    countColorFields
      [⟨"color0", .Renderbuffer, .Color, 0, 0⟩,
       ⟨"depth0", .Renderbuffer, .Depth, 0, 1⟩,
       ⟨"color1", .Texture, .Color, 1, 2⟩] ≤ 255 ∧
    Attachments.color_attachments
      [⟨"color0", .Renderbuffer, .Color, 0, 0⟩,
       ⟨"depth0", .Renderbuffer, .Depth, 0, 1⟩,
       ⟨"color1", .Texture, .Color, 1, 2⟩] = [0, 1] := by
  refine ⟨by decide, ?_⟩
  have h := color_attachments_compact
    [⟨"color0", .Renderbuffer, .Color, 0, 0⟩,
     ⟨"depth0", .Renderbuffer, .Depth, 0, 1⟩,
     ⟨"color1", .Texture, .Color, 1, 2⟩] (by decide)
  rw [h]
  decide

/-! ## Reference transparency (`impl Attachment for &'a mut A`,
`src/framebuffer/attachments.rs` and
`gullery/src/framebuffer/attachments.rs`) -/

/-- An attachment-capability value: a renderbuffer or texture at some
address (with its `Format` associated type as an opaque token, and for
textures the `MipSelector` associated type token), or a mutable reference
at its own address wrapping another attachment value. -/
inductive AttachmentVal where
  | renderbuffer (addr : Nat) (format : Nat)
  | texture (addr : Nat) (format : Nat) (mipSelTy : Nat)
  | mutRef (addr : Nat) (inner : AttachmentVal)
  deriving DecidableEq, Repr

namespace AttachmentVal

/-- The `Format` associated type of each `AttachmentType` impl:
`Renderbuffer<I>` has `I`, `Texture<D, T>` has `T::Format`, and
`&'a mut A` has `A::Format`. -/
def format : AttachmentVal → Nat
  | renderbuffer _ f => f
  | texture _ f _ => f
  | mutRef _ inner => inner.format

/-- The `MipSelector` associated type of each impl, as a token: `()`
(token 0) for renderbuffers, `T::MipSelector` for textures, and the
referent's selector for `&'a mut A`. -/
def mipSelectorTy : AttachmentVal → Nat
  | renderbuffer _ _ => 0
  | texture _ _ m => m
  | mutRef _ inner => inner.mipSelectorTy

/-- `resolve_reference` from the source: the default impl returns the
value's own address (`self as *const Self as *const ()`); the
`&'a mut A` impl forwards to `A::resolve_reference(self)`, i.e. to the
referent. -/
def resolve_reference : AttachmentVal → Nat
  | renderbuffer addr _ => addr
  | texture addr _ _ => addr
  | mutRef _ inner => inner.resolve_reference

/-- Strip every mutable-reference wrapper. -/
def innermost : AttachmentVal → AttachmentVal
  | mutRef _ inner => inner.innermost
  | v => v

/-- One dereference step, `&**get_member(r)` in the source's wrapped
accessor: unwraps a single mutable-reference layer. -/
def deref : AttachmentVal → AttachmentVal
  | mutRef _ inner => inner
  | v => v

end AttachmentVal

/-- The call an `add_to_registry` invocation makes on the narrow
`AttachmentsMemberRegistry`, with the accessor reified as the member value
it yields on the traversed aggregate. -/
inductive RegistrationCall where
  | addRenderbuffer (name : String) (resolved : AttachmentVal)
  | addTexture (name : String) (resolved : AttachmentVal) (mip : Nat)
  deriving DecidableEq, Repr

/-- The member value the registry's accessor resolves to. -/
def RegistrationCall.resolved : RegistrationCall → AttachmentVal
  | addRenderbuffer _ v => v
  | addTexture _ v _ => v

/-- `add_to_registry` of each `AttachmentType` impl, dispatched on the
field's static type (the shape of the first argument):
`Renderbuffer` calls `add_renderbuffer(name, |r| get_member(r))`;
`Texture` calls `add_texture(name, |r| get_member(r), mip)`; `&'a mut A`
forwards to `A::add_to_registry` with the accessor wrapped in a
dereference (`|r| &**get_member(r)`) and the mip selector unchanged. -/
def AttachmentVal.add_to_registry {α : Type} :
    AttachmentVal → String → (α → AttachmentVal) → Nat → α → RegistrationCall
  | renderbuffer _ _, name, get_member, _, agg =>
    .addRenderbuffer name (get_member agg)
  | texture _ _ _, name, get_member, mip, agg =>
    .addTexture name (get_member agg) mip
  | mutRef _ inner, name, get_member, mip, agg =>
    inner.add_to_registry name (fun r => (get_member r).deref) mip agg

lemma add_to_registry_resolves {α : Type} (v : AttachmentVal) :
    ∀ (g : α → AttachmentVal) (agg : α) (name : String) (mip : Nat),
      g agg = v →
      (v.add_to_registry name g mip agg).resolved = v.innermost ∧
      (v.add_to_registry name g mip agg).resolved.resolve_reference =
        v.resolve_reference := by
  induction v with
  | renderbuffer addr f =>
    intro g agg name mip hg
    simp [AttachmentVal.add_to_registry, RegistrationCall.resolved, hg,
      AttachmentVal.innermost, AttachmentVal.resolve_reference]
  | texture addr f m =>
    intro g agg name mip hg
    simp [AttachmentVal.add_to_registry, RegistrationCall.resolved, hg,
      AttachmentVal.innermost, AttachmentVal.resolve_reference]
  | mutRef addr inner ih =>
    intro g agg name mip hg
    have hg' : (fun r => (g r).deref) agg = inner := by
      simp [hg, AttachmentVal.deref]
    have h := ih (fun r => (g r).deref) agg name mip hg'
    simpa [AttachmentVal.add_to_registry, AttachmentVal.innermost,
      AttachmentVal.resolve_reference] using h

/-- **C3.** Wrapping an attachment value in a mutable reference changes
neither its `Format` nor its `MipSelector` associated type nor the identity
pointer `resolve_reference` observes; and for every accessor `g` resolving
to the value on the traversed aggregate, `add_to_registry` bottoms out in a
narrow-registry call whose accessor resolves to the innermost,
reference-free value, whose identity pointer equals the value's own
`resolve_reference`. -/
theorem mutRef_transparent :
    (∀ (a : Nat) (v : AttachmentVal),
      (AttachmentVal.mutRef a v).format = v.format ∧
      (AttachmentVal.mutRef a v).mipSelectorTy = v.mipSelectorTy ∧
      (AttachmentVal.mutRef a v).resolve_reference = v.resolve_reference) ∧
    (∀ (α : Type) (g : α → AttachmentVal) (agg : α) (v : AttachmentVal)
        (name : String) (mip : Nat), g agg = v →
      (v.add_to_registry name g mip agg).resolved = v.innermost ∧
      (v.add_to_registry name g mip agg).resolved.resolve_reference =
        v.resolve_reference) := by
  refine ⟨fun a v => ⟨rfl, rfl, rfl⟩, ?_⟩
  intro α g agg v name mip hg
  exact add_to_registry_resolves v g agg name mip hg

/-- Witness for C3: a renderbuffer at address 3 wrapped in two mutable
references still registers as the renderbuffer at address 3. -/
theorem mutRef_transparent_witness :
    ((fun _ : Unit => AttachmentVal.mutRef 11 (.mutRef 7 (.renderbuffer 3 5))) () =
      AttachmentVal.mutRef 11 (.mutRef 7 (.renderbuffer 3 5))) ∧
    ((AttachmentVal.mutRef 11 (.mutRef 7 (.renderbuffer 3 5))).add_to_registry
        "color" (fun _ : Unit => .mutRef 11 (.mutRef 7 (.renderbuffer 3 5))) 0
        ()).resolved = .renderbuffer 3 5 ∧
    ((AttachmentVal.mutRef 11 (.mutRef 7 (.renderbuffer 3 5))).add_to_registry
        "color" (fun _ : Unit => .mutRef 11 (.mutRef 7 (.renderbuffer 3 5))) 0
        ()).resolved.resolve_reference = 3 := by
  have h := mutRef_transparent.2 Unit
    (fun _ => AttachmentVal.mutRef 11 (.mutRef 7 (.renderbuffer 3 5))) ()
    (AttachmentVal.mutRef 11 (.mutRef 7 (.renderbuffer 3 5))) "color" 0 rfl
  exact ⟨rfl, by rw [h.1]; rfl, by rw [h.2]; rfl⟩

/-! ## Vertex attribute registration (`src/buffers/vao.rs`) -/

/-- The registration-relevant state of `VertexAttribBuilder`: the next
attribute slot and the hardware maximum (`GL_MAX_VERTEX_ATTRIBS`). -/
structure VertexAttribBuilder where
  attrib_index : Nat
  max_attribs : Nat
  deriving DecidableEq, Repr

/-- The panics `add_vertex_attrib` can hit, in source order: the two
offset bounds asserts, the attribute-size assert, the OpenGL-4 double
branch, and the capacity panic, which names the offending field and the
hardware maximum. -/
inductive VaoPanic where
  | offsetNegative
  | offsetOutOfBounds
  | attribSizeTooLarge
  | openGL4Feature
  | tooManyAttribs (name : String) (max_attribs : Nat)
  deriving DecidableEq, Repr

/-- `VertexAttribBuilder::add_vertex_attrib` from `src/buffers/vao.rs`.
Addresses are integers; `attrib_ptr` is what the accessor returned on the
default-constructed vertex at `vertex_addr`; `size_T`/`size_V` are
`mem::size_of` of the field and the vertex type; `attrib_size` is
`T::len() * size_of::<T::GLPrim>()`; `is_double` is the
`T::GLPrim::gl_enum() == gl::DOUBLE` test.  Each `assert!`/`panic!`
becomes an `Except.error`; the hardware calls themselves are outside the
model. -/
def add_vertex_attrib (vab : VertexAttribBuilder) (name : String)
    (vertex_addr attrib_ptr : Int) (size_T size_V attrib_size : Nat)
    (is_double : Bool) : Except VaoPanic VertexAttribBuilder :=
  let attrib_offset : Int := attrib_ptr - vertex_addr
  if attrib_offset < 0 then .error .offsetNegative
  else if ¬ (attrib_offset.toNat + size_T ≤ size_V) then .error .offsetOutOfBounds
  else if ¬ (attrib_size ≤ size_T) then .error .attribSizeTooLarge
  else if vab.attrib_index < vab.max_attribs then
    if is_double then .error .openGL4Feature
    else .ok { vab with attrib_index := vab.attrib_index + 1 }
  else .error (.tooManyAttribs name vab.max_attribs)

/-- **C4.** `add_vertex_attrib` computes the field offset as the
difference between the accessor-returned pointer and the vertex address
and fails fatally — never proceeding to registration — whenever that
offset is negative or `offset + size_of::<T>()` exceeds
`size_of::<V>()`, i.e. whenever the accessor's reference lies outside the
parent vertex's memory footprint. -/
theorem add_vertex_attrib_bounds_panic (vab : VertexAttribBuilder)
    (name : String) (vertex_addr attrib_ptr : Int)
    (size_T size_V attrib_size : Nat) (is_double : Bool)
    (h : attrib_ptr - vertex_addr < 0 ∨
      size_V < (attrib_ptr - vertex_addr).toNat + size_T) :
    add_vertex_attrib vab name vertex_addr attrib_ptr size_T size_V
        attrib_size is_double = .error .offsetNegative ∨
    add_vertex_attrib vab name vertex_addr attrib_ptr size_T size_V
        attrib_size is_double = .error .offsetOutOfBounds := by
  unfold add_vertex_attrib
  by_cases h0 : attrib_ptr - vertex_addr < 0
  · left; simp [h0]
  · right
    have h1 : ¬ ((attrib_ptr - vertex_addr).toNat + size_T ≤ size_V) := by
      rcases h with h | h
      · exact absurd h h0
      · omega
    simp [h0, h1]

/-- Witness for C4: a vertex at address 1000 with a 24-byte layout and an
accessor returning a 12-byte field at static address 64 (outside the
vertex) panics on the negative-offset assert. -/
theorem add_vertex_attrib_bounds_panic_witness :
    ((64 : Int) - 1000 < 0 ∨
      (24 : Nat) < ((64 : Int) - 1000).toNat + 12) ∧
    (add_vertex_attrib ⟨0, 16⟩ "vert" 1000 64 12 24 12 false =
        .error .offsetNegative ∨
      add_vertex_attrib ⟨0, 16⟩ "vert" 1000 64 12 24 12 false =
        .error .offsetOutOfBounds) :=
  ⟨by decide,
    add_vertex_attrib_bounds_panic ⟨0, 16⟩ "vert" 1000 64 12 24 12 false
      (by decide)⟩

/-- **C8.** When the builder has already used all `max_attribs` slots and
the bounds checks pass, `add_vertex_attrib` fails fatally with the
capacity panic naming the offending field and the limit; and whenever it
succeeds it consumes exactly one slot — `attrib_index` grows by exactly 1
and never exceeds `max_attribs`. -/
theorem add_vertex_attrib_capacity (vab : VertexAttribBuilder)
    (name : String) (vertex_addr attrib_ptr : Int)
    (size_T size_V attrib_size : Nat) (is_double : Bool) :
    (vab.max_attribs ≤ vab.attrib_index →
      ¬ (attrib_ptr - vertex_addr < 0) →
      (attrib_ptr - vertex_addr).toNat + size_T ≤ size_V →
      attrib_size ≤ size_T →
      add_vertex_attrib vab name vertex_addr attrib_ptr size_T size_V
        attrib_size is_double = .error (.tooManyAttribs name vab.max_attribs)) ∧
    (∀ vab' : VertexAttribBuilder,
      add_vertex_attrib vab name vertex_addr attrib_ptr size_T size_V
        attrib_size is_double = .ok vab' →
      vab'.attrib_index = vab.attrib_index + 1 ∧
      vab'.attrib_index ≤ vab.max_attribs) := by
  constructor
  · intro hcap h0 h1 h2
    have hlt : ¬ (vab.attrib_index < vab.max_attribs) := by omega
    simp [add_vertex_attrib, h0, h1, h2, hlt]
  · intro vab' hok
    unfold add_vertex_attrib at hok
    by_cases h0 : attrib_ptr - vertex_addr < 0
    · simp [h0] at hok
    · by_cases h1 : (attrib_ptr - vertex_addr).toNat + size_T ≤ size_V
      · by_cases h2 : attrib_size ≤ size_T
        · by_cases hlt : vab.attrib_index < vab.max_attribs
          · cases is_double with
            | true => simp [h0, h1, h2, hlt] at hok
            | false =>
              simp [h0, h1, h2, hlt] at hok
              rw [← hok]
              exact ⟨rfl, by simp; omega⟩
          · simp [h0, h1, h2, hlt] at hok
        · simp [h0, h1, h2] at hok
      · simp [h0, h1] at hok

/-- Witness for C8: with all 16 slots used the capacity panic names the
field and the limit; from 3 used slots a successful registration moves to
exactly 4 of at most 16. -/
theorem add_vertex_attrib_capacity_witness :
    add_vertex_attrib ⟨16, 16⟩ "color" 1000 1012 12 24 12 false =
      .error (.tooManyAttribs "color" 16) ∧
    (add_vertex_attrib ⟨3, 16⟩ "color" 1000 1012 12 24 12 false =
        .ok ⟨4, 16⟩ ∧
      (4 : Nat) = 3 + 1 ∧ (4 : Nat) ≤ 16) := by
  constructor
  · exact (add_vertex_attrib_capacity ⟨16, 16⟩ "color" 1000 1012 12 24 12
      false).1 (by decide) (by decide) (by decide) (by decide)
  · refine ⟨rfl, ?_⟩
    have h := (add_vertex_attrib_capacity ⟨3, 16⟩ "color" 1000 1012 12 24 12
      false).2 ⟨4, 16⟩ rfl
    exact ⟨h.1, h.2⟩

/-! ## Fixed-size handle containers (`impl_attachment_array!`) -/

/-- The exact list of array lengths the `impl_attachment_array!` macro
invocation implements `AttachmentHandleContainer` for, in both source
versions. -/
def impl_attachment_array_lengths : List Nat :=
  [0, 1, 2, 3, 4, 5, 6, 7, 8, 9, 10, 11, 12, 13, 14, 15, 16, 17, 18, 19,
   20, 21, 22, 23, 24, 25, 26, 27, 28, 29, 30, 31, 32]

/-- `[Option<Handle>; L]` as implementing `AttachmentHandleContainer` in
`gullery/src/framebuffer/attachments.rs`: a length-`L` sequence of
optional handles. -/
structure AttachmentHandleContainer (L : Nat) where
  data : List (Option Nat)
  len_eq : data.length = L
  deriving DecidableEq, Repr

/-- `new_zeroed` for `[Option<Handle>; L]`: `[None; L]`. -/
def AttachmentHandleContainer.new_zeroed (L : Nat) :
    AttachmentHandleContainer L :=
  ⟨List.replicate L none, List.length_replicate L none⟩

/-- The `AsRef<[Option<Handle>]>` borrowed sequence view. -/
def AttachmentHandleContainer.as_ref {L : Nat}
    (c : AttachmentHandleContainer L) : List (Option Nat) :=
  c.data

/-- Writing a full length-`L` sequence back through the
`AsMut<[Option<Handle>]>` view. -/
def AttachmentHandleContainer.of_view (L : Nat) (v : List (Option Nat))
    (h : v.length = L) : AttachmentHandleContainer L :=
  ⟨v, h⟩

/-- `[GLuint; L]` as implementing `AttachmentHandleContainer` in
`src/framebuffer/attachments.rs`: a length-`L` sequence of raw handles,
empty handle `0`. -/
structure AttachmentHandleContainerGL (L : Nat) where
  data : List Nat
  len_eq : data.length = L
  deriving DecidableEq, Repr

/-- `new_zeroed` for `[GLuint; L]`: `[0; L]`. -/
def AttachmentHandleContainerGL.new_zeroed (L : Nat) :
    AttachmentHandleContainerGL L :=
  ⟨List.replicate L 0, List.length_replicate L 0⟩

/-- The `AsRef<[GLuint]>` borrowed sequence view. -/
def AttachmentHandleContainerGL.as_ref {L : Nat}
    (c : AttachmentHandleContainerGL L) : List Nat :=
  c.data

/-- Writing a full length-`L` sequence back through `AsMut<[GLuint]>`. -/
def AttachmentHandleContainerGL.of_view (L : Nat) (v : List Nat)
    (h : v.length = L) : AttachmentHandleContainerGL L :=
  ⟨v, h⟩

/-- **C9.** The handle-container impls exist exactly for lengths 0..=32;
a freshly `new_zeroed` container of each supported length has all `L`
slots equal to the empty-handle sentinel (`None` for `[Option<Handle>; L]`,
`0` for `[GLuint; L]`); and converting any container to its borrowed
sequence view and back preserves all `L` values unchanged. -/
theorem attachment_handle_container_zeroed_roundtrip :
    (∀ L : Nat, L ∈ impl_attachment_array_lengths ↔ L ≤ 32) ∧
    (∀ L : Nat,
      (AttachmentHandleContainer.new_zeroed L).as_ref.length = L ∧
      (∀ x ∈ (AttachmentHandleContainer.new_zeroed L).as_ref, x = none) ∧
      (AttachmentHandleContainerGL.new_zeroed L).as_ref.length = L ∧
      (∀ x ∈ (AttachmentHandleContainerGL.new_zeroed L).as_ref, x = 0)) ∧
    (∀ (L : Nat) (c : AttachmentHandleContainer L),
      AttachmentHandleContainer.of_view L c.as_ref c.len_eq = c) ∧
    (∀ (L : Nat) (v : List (Option Nat)) (h : v.length = L),
      (AttachmentHandleContainer.of_view L v h).as_ref = v) ∧
    (∀ (L : Nat) (c : AttachmentHandleContainerGL L),
      AttachmentHandleContainerGL.of_view L c.as_ref c.len_eq = c) ∧
    (∀ (L : Nat) (v : List Nat) (h : v.length = L),
      (AttachmentHandleContainerGL.of_view L v h).as_ref = v) := by
  refine ⟨?_, ?_, ?_, ?_, ?_, ?_⟩
  · intro L
    constructor
    · intro hmem
      simp [impl_attachment_array_lengths] at hmem
      omega
    · intro hle
      interval_cases L <;> simp [impl_attachment_array_lengths]
  · intro L
    refine ⟨?_, ?_, ?_, ?_⟩
    · simp [AttachmentHandleContainer.new_zeroed, AttachmentHandleContainer.as_ref]
    · intro x hx
      simp [AttachmentHandleContainer.new_zeroed,
        AttachmentHandleContainer.as_ref] at hx
      exact hx.2
    · simp [AttachmentHandleContainerGL.new_zeroed,
        AttachmentHandleContainerGL.as_ref]
    · intro x hx
      simp [AttachmentHandleContainerGL.new_zeroed,
        AttachmentHandleContainerGL.as_ref] at hx
      exact hx.2
  · intro L c; rfl
  · intro L v h; rfl
  · intro L c; rfl
  · intro L v h; rfl

/-- Witness for C9 at length 2: length 2 is supported, both zeroed
containers hold only sentinels, and the view round trip returns the
original container. -/
theorem attachment_handle_container_zeroed_roundtrip_witness :
    ((2 : Nat) ∈ impl_attachment_array_lengths ↔ (2 : Nat) ≤ 32) ∧
    (none ∈ (AttachmentHandleContainer.new_zeroed 2).as_ref ∧
      (none : Option Nat) = none) ∧
    AttachmentHandleContainer.of_view 2
      (AttachmentHandleContainer.new_zeroed 2).as_ref
      (AttachmentHandleContainer.new_zeroed 2).len_eq =
      AttachmentHandleContainer.new_zeroed 2 :=
  ⟨attachment_handle_container_zeroed_roundtrip.1 2,
    ⟨by decide,
      (attachment_handle_container_zeroed_roundtrip.2.1 2).2.1 none (by decide)⟩,
    attachment_handle_container_zeroed_roundtrip.2.2.1 2
      (AttachmentHandleContainer.new_zeroed 2)⟩
